import Mathlib

/-!
Verification of the configuration-resolution and provider-activation core of
the garden orchestration tool, against its natural-language specification.

The embedding follows the repository's source: `ResolveProviderTask`
(`resolveDependencies`, `process`, `ensurePrepared`) is translated from the
TypeScript in the repository; the environment selector, project-config
resolver, varfile loader and merge primitives, whose implementation files are
not part of the source tree (only their unit tests are), are modelled from
the specification and pinned by the expected outputs of those unit tests.

Configuration data is modelled by `JVal`, a JSON-like value type with an
explicit constructor for template-string expressions (a `tmpl` node carries
the dotted reference path, e.g. `["local", "env", "TEST_ENV_VAR"]` for the
source text `${local.env.TEST_ENV_VAR}`), so that template resolution is a
structural operation rather than string parsing.
-/

namespace GardenSpec

/-- JSON-like configuration values. `tmpl path` represents an unresolved
template-string expression `${path₁.path₂...}`. Objects are ordered
association lists, matching JavaScript object key order. -/
inductive JVal where
  | null : JVal
  | str : String → JVal
  | boolean : Bool → JVal
  | tmpl : List String → JVal
  | obj : List (String × JVal) → JVal
  | arr : List JVal → JVal
deriving Repr, Inhabited

namespace JVal

mutual

/-- Equivalence test on values, written as one recursion per nesting
position (value, array body, object body) so each of the three is
structurally recursive. Two values are equivalent when they are built by the
same constructor from equivalent pieces. -/
def eqv : JVal → JVal → Bool
  | .obj props, .obj props2 => eqvProps props props2
  | .arr elems, .arr elems2 => eqvElems elems elems2
  | .str s, .str s2 => s == s2
  | .boolean x, .boolean x2 => x == x2
  | .tmpl path, .tmpl path2 => path == path2
  | .null, .null => true
  | _, _ => false

/-- Equivalence of array bodies: same length, equivalent elements in
order. -/
def eqvElems : List JVal → List JVal → Bool
  | a :: as, b :: bs => if eqv a b then eqvElems as bs else false
  | [], [] => true
  | _, _ => false

/-- Equivalence of object bodies: same keys in the same order with
equivalent values. -/
def eqvProps : List (String × JVal) → List (String × JVal) → Bool
  | (ka, va) :: as, (kb, vb) :: bs =>
    if ka = kb then (if eqv va vb then eqvProps as bs else false) else false
  | [], [] => true
  | _, _ => false

end

mutual

/-- The equivalence test answers `true` exactly on equal values, so it
decides equality. Each left constructor is handled by casing the right
value; the nested positions defer to the list lemmas below. -/
theorem eqv_iff : ∀ a b : JVal, eqv a b = true ↔ a = b
  | .null, b => by cases b <;> simp [eqv]
  | .str s, b => by cases b <;> simp [eqv]
  | .boolean x, b => by cases b <;> simp [eqv]
  | .tmpl path, b => by cases b <;> simp [eqv]
  | .obj props, b => by
    cases b with
    | obj props2 => simpa [eqv] using eqvProps_iff props props2
    | null => simp [eqv]
    | str _ => simp [eqv]
    | boolean _ => simp [eqv]
    | tmpl _ => simp [eqv]
    | arr _ => simp [eqv]
  | .arr elems, b => by
    cases b with
    | arr elems2 => simpa [eqv] using eqvElems_iff elems elems2
    | null => simp [eqv]
    | str _ => simp [eqv]
    | boolean _ => simp [eqv]
    | tmpl _ => simp [eqv]
    | obj _ => simp [eqv]

/-- Array-body equivalence decides equality of the element lists. -/
theorem eqvElems_iff : ∀ as bs : List JVal, eqvElems as bs = true ↔ as = bs
  | a :: as, b :: bs => by
    unfold eqvElems
    by_cases h : eqv a b = true
    · have hab := (eqv_iff a b).mp h
      subst hab
      simp [h, eqvElems_iff as bs]
    · simp only [h, if_false]
      constructor
      · intro hc; exact absurd hc (by simp)
      · intro hc
        injection hc with h1 h2
        exact absurd ((eqv_iff a b).mpr h1) h
  | [], [] => by simp [eqvElems]
  | [], _ :: _ => by simp [eqvElems]
  | _ :: _, [] => by simp [eqvElems]

/-- Object-body equivalence decides equality of the field lists: keys,
values and order all count. -/
theorem eqvProps_iff : ∀ as bs : List (String × JVal), eqvProps as bs = true ↔ as = bs
  | (ka, va) :: as, (kb, vb) :: bs => by
    unfold eqvProps
    by_cases hk : ka = kb
    · by_cases hv : eqv va vb = true
      · have hvv := (eqv_iff va vb).mp hv
        subst hk hvv
        simp [hv, eqvProps_iff as bs]
      · simp only [hk, if_true, hv, if_false, if_pos]
        constructor
        · intro hc; exact absurd hc (by simp)
        · intro hc
          injection hc with h1 h2
          injection h1 with h1a h1b
          exact absurd ((eqv_iff va vb).mpr h1b) hv
    · simp only [hk, if_false]
      constructor
      · intro hc; exact absurd hc (by simp)
      · intro hc
        injection hc with h1 h2
        injection h1 with h1a h1b
        exact absurd h1a hk
  | [], [] => by simp [eqvProps]
  | [], _ :: _ => by simp [eqvProps]
  | _ :: _, [] => by simp [eqvProps]

end

instance : DecidableEq JVal := fun a b => decidable_of_iff (eqv a b = true) (eqv_iff a b)

end JVal

/-- Ordered-association-list lookup: the value bound to the first occurrence
of a key, mirroring JavaScript property access on the object model. -/
def lookupStr {α : Type} (m : List (String × α)) (k : String) : Option α :=
  match m.find? (fun p => p.1 == k) with
  | some p => some p.2
  | none => none

/-- Remove every binding of a key (JavaScript `delete obj[k]` / lodash
`omit`). -/
def omitKey {α : Type} (m : List (String × α)) (k : String) : List (String × α) :=
  m.filter (fun p => p.1 != k)

/-- JavaScript property assignment on the object model: an existing key keeps
its position and gets the new value, a fresh key is appended. -/
def upsert {α : Type} (m : List (String × α)) (k : String) (v : α) : List (String × α) :=
  if m.any (fun p => p.1 == k) then
    m.map (fun p => if p.1 == k then (p.1, v) else p)
  else
    m ++ [(k, v)]

/-- Object body of a value: the fields when it is an object, `[]` otherwise
(RFC 7396 resets a non-object target to `\x7b\x7d` before patching). -/
def objFields : JVal → List (String × JVal)
  | .obj fs => fs
  | _ => []

mutual

/-- Modelled from the spec: JSON Merge Patch (RFC 7396), the patch algebra
§4.3 prescribes for same-named provider fragments; the implementation module
applying it is not in the source tree. A non-object patch replaces the target
outright; an object patch is folded over the target field by field. -/
def jsonMergePatch : JVal → JVal → JVal
  | target, .obj patchFields => .obj (jsonMergePatchFields (objFields target) patchFields)
  | _, patch => patch

/-- Field-by-field application of an object patch: a `null` patch value
deletes the key from the accumulated result, any other value is itself
merge-patched onto the key's current value (a missing key patches onto
`null`, i.e. onto an empty object when the patch value is an object). -/
def jsonMergePatchFields : List (String × JVal) → List (String × JVal) → List (String × JVal)
  | acc, [] => acc
  | acc, (k, v) :: rest =>
    match v with
    | .null => jsonMergePatchFields (omitKey acc k) rest
    | _ =>
      let old := match lookupStr acc k with
        | some o => o
        | none => JVal.null
      jsonMergePatchFields (upsert acc k (jsonMergePatch old v)) rest

end

mutual

/-- Modelled from the spec: the deep variable merge of §4.1 (the Variable
Merger's implementation module is not in the source tree). Nested mappings
merge key by key recursively, sequences merge positionally with the shorter
sequence extended, and any other later value replaces the earlier one. -/
def deepMerge : JVal → JVal → JVal
  | .obj a, .obj b => .obj (deepMergeFields a b)
  | .arr a, .arr b => .arr (deepMergeArr a b)
  | _, b => b

/-- Key-by-key recursive merge of two object bodies; keys only in the later
source are appended in their order. -/
def deepMergeFields : List (String × JVal) → List (String × JVal) → List (String × JVal)
  | a, [] => a
  | a, (k, v) :: rest =>
    let merged := match lookupStr a k with
      | some old => deepMerge old v
      | none => v
    deepMergeFields (upsert a k merged) rest

/-- Positional merge of two sequences: element i of the later source is
deep-merged into element i of the earlier source, and whichever sequence is
longer contributes its tail unchanged. -/
def deepMergeArr : List JVal → List JVal → List JVal
  | [], ys => ys
  | xs, [] => xs
  | x :: xs, y :: ys => deepMerge x y :: deepMergeArr xs ys

end

/-- A provider configuration fragment: provider name, optional environment
filter, and the remaining opaque key/value settings. -/
structure ProviderFragment where
  name : String
  environments : Option (List String)
  config : List (String × JVal)
deriving Repr, DecidableEq, Inhabited

/-- Modelled from the spec: the fixed list of built-in provider plugins every
environment gets (§4.3 step 4, "a generic executor and a generic container
runtime"); pinned by the unit test expecting
`[\x7bname: "exec"\x7d, \x7bname: "container"\x7d]` for a project with no
declared providers. -/
def fixedPlugins : List String := ["exec", "container"]

/-- Merge one fragment into an accumulated provider list: a fragment whose
name is already present is JSON-merge-patched onto that entry in place, a
fresh name is appended; distinct names therefore keep first-seen order. -/
def mergeFragmentInto (acc : List ProviderFragment) (p : ProviderFragment) :
    List ProviderFragment :=
  if acc.any (fun q => q.name == p.name) then
    acc.map (fun q =>
      if q.name == p.name then
        { q with config := jsonMergePatchFields q.config p.config }
      else q)
  else
    acc ++ [p]

/-- Group an ordered fragment list by provider name, patch-merging within
each name group in list order. -/
def mergeFragments (ps : List ProviderFragment) : List ProviderFragment :=
  ps.foldl mergeFragmentInto []

/-- Keep only the fragments applicable to the target environment: an absent
`environments` filter applies everywhere. -/
def filterFragments (ps : List ProviderFragment) (envName : String) :
    List ProviderFragment :=
  ps.filter (fun p =>
    match p.environments with
    | none => true
    | some envs => envs.contains envName)

/-- Modelled from the spec: the provider-list computation of `pickEnvironment`
(§4.3; the implementation module `src/config/project.ts` is not in the source
tree). The built-in providers are placed ahead of the user-declared,
environment-filtered fragments, and the combined list is patch-merged by
name; the built-in entries therefore seed the merge groups for their names,
exactly reproducing the unit tests' expected outputs (an explicit
`\x7bname: "container", newKey: "foo"\x7d` fragment yields a merged
`container` entry carrying `newKey`). -/
def pickEnvironmentProviders (ps : List ProviderFragment) (envName : String) :
    List ProviderFragment :=
  let fixedProviders := fixedPlugins.map (fun n => ProviderFragment.mk n none [])
  mergeFragments (fixedProviders ++ filterFragments ps envName)

/-- Per-environment namespacing policy. -/
inductive Namespacing where
  | optional : Namespacing
  | required : Namespacing
  | disabled : Namespacing
deriving Repr, DecidableEq, Inhabited

/-- One environment's configuration, after schema defaults are populated. -/
structure EnvironmentConfig where
  name : String
  namespacing : Namespacing := .optional
  production : Bool := false
  varfile : Option String := none
  vars : List (String × JVal) := []
  providers : List ProviderFragment := []
deriving Repr, DecidableEq, Inhabited

/-- The canonical project configuration consumed by `pickEnvironment`. -/
structure ProjectConfig where
  name : String
  defaultEnvironment : String := ""
  environments : List EnvironmentConfig := []
  providers : List ProviderFragment := []
  varfile : Option String := none
  vars : List (String × JVal) := []
  sources : JVal := .arr []
deriving Repr, DecidableEq, Inhabited

/-- Resolution and selection failures, by the taxonomy of §7. Each carries
its user-visible message. -/
inductive GError where
  | configurationError : String → GError
  | parameterError : String → GError
  | pluginError : String → GError
deriving Repr, DecidableEq

/-- Characters permitted in an environment or namespace segment: a
DNS-label-like pattern of lowercase alphanumerics and hyphens, starting with
a letter. -/
def validSegment (s : String) : Bool :=
  match s.toList with
  | [] => false
  | c :: rest => c.isLower && rest.all (fun d => d.isLower || d.isDigit || d == '-')

/-- Split a character list on the `.` delimiter (structural counterpart of
`String.splitOn "."`, kept kernel-reducible for concrete evaluation). -/
def splitDotsAux : List Char → List Char → List String
  | [], acc => [String.mk acc.reverse]
  | c :: rest, acc =>
    if c == '.' then String.mk acc.reverse :: splitDotsAux rest []
    else splitDotsAux rest (c :: acc)

/-- Segments of a selector string between `.` delimiters. -/
def splitDots (s : String) : List String :=
  splitDotsAux s.toList []

/-- Modelled from the spec: `parseEnvironment` (§4.4; implementation not in
the source tree, behavior pinned by its unit tests). The selector splits on
`.` into at most two segments, each a valid name; the error messages are the
literal strings the tests expect. -/
def parseEnvironment (selector : String) : Except GError (String × Option String) :=
  let parts := splitDots selector
  if parts.length > 2 then
    .error (.configurationError
      ("Invalid environment specified (" ++ selector ++ "): may only contain a single delimiter"))
  else if !parts.all validSegment then
    .error (.configurationError
      ("Invalid environment specified (" ++ selector ++
        "): must be a valid environment name or <namespace>.<environment>"))
  else
    match parts with
    | [e] => .ok (e, none)
    | [ns, e] => .ok (e, some ns)
    | _ => .ok (selector, none)

/-- Modelled from the spec: the default project varfile path (§4.2; pinned by
the unit tests' use of `defaultVarfilePath`). -/
def defaultVarfilePath : String := "garden.env"

/-- Modelled from the spec: the default per-environment varfile path. -/
def defaultEnvVarfilePath (envName : String) : String :=
  "garden." ++ envName ++ ".env"

/-- A snapshot of the files visible to the varfile loader: path to
already-parsed variable mapping. -/
abbrev FileSystem : Type := List (String × List (String × JVal))

/-- Modelled from the spec: the Varfile Loader (§4.2; implementation not in
the source tree). A present file yields its parsed mapping. An absent file
yields an empty mapping when the caller left the path at its default, and a
`ConfigurationError` carrying the configured path verbatim when the caller
set a non-default path. -/
def loadVarfile (fs : FileSystem) (path : Option String) (defaultPath : String) :
    Except GError (List (String × JVal)) :=
  let resolvedPath := path.getD defaultPath
  match lookupStr fs resolvedPath with
  | some contents => .ok contents
  | none =>
    match path with
    | some p =>
      if p == defaultPath then .ok []
      else .error (.configurationError ("Could not find varfile at path '" ++ p ++ "'"))
    | none => .ok []

/-- The fully merged environment descriptor `pickEnvironment` produces. -/
structure ResolvedEnvironment where
  environmentName : String
  namespc : Option String
  production : Bool
  providers : List ProviderFragment
  vars : List (String × JVal)
deriving Repr, DecidableEq, Inhabited

/-- Modelled from the spec: `pickEnvironment` (§4.4; implementation not in
the source tree, behavior pinned by its unit tests). Parses the selector,
looks the environment up, enforces the namespacing policy with the tests'
literal messages, loads the project and environment varfiles, merges the four
variable sources lowest-to-highest precedence, and runs the provider
patch-merge pipeline. -/
def pickEnvironment (fs : FileSystem) (config : ProjectConfig) (selector : String) :
    Except GError ResolvedEnvironment := do
  let (envName, namespc) ← parseEnvironment selector
  match config.environments.find? (fun e => e.name == envName) with
  | none =>
    .error (.parameterError
      ("Project " ++ config.name ++ " does not specify environment " ++ envName))
  | some envConfig =>
    if envConfig.namespacing == .required && namespc.isNone then
      .error (.configurationError
        ("Environment " ++ envName ++ " requires a namespace, but none was specified."))
    else if envConfig.namespacing == .disabled && namespc.isSome then
      .error (.configurationError
        ("Environment " ++ envName ++ " does not allow namespacing, but namespace '" ++
          namespc.getD "" ++ "' was specified."))
    else do
      let projectVarfileVars ← loadVarfile fs config.varfile defaultVarfilePath
      let envVarfileVars ← loadVarfile fs envConfig.varfile (defaultEnvVarfilePath envName)
      let mergedVars :=
        deepMergeFields
          (deepMergeFields (deepMergeFields config.vars projectVarfileVars)
            envConfig.vars)
          envVarfileVars
      .ok
        { environmentName := envName
          namespc := namespc
          production := envConfig.production
          providers := pickEnvironmentProviders config.providers envName
          vars := mergedVars }

/-- A template-resolution context: dotted reference paths to values (for
example `["local", "platform"]` to the platform name, or
`["providers", name, "outputs", key]` to a resolved provider output). -/
abbrev TmplCtx : Type := List (List String × JVal)

/-- Value bound to a reference path in a context. -/
def lookupPath (ctx : TmplCtx) (path : List String) : Option JVal :=
  match ctx.find? (fun p => p.1 == path) with
  | some p => some p.2
  | none => none

mutual

/-- Modelled from the spec: the external template engine's `resolve` (§6),
applied structurally. A `tmpl` node is replaced by the context's binding for
its path; every other value is traversed. References the context does not
bind are left in place (the engine's error path is outside the claims
checked here, which only exercise defined references). -/
def resolveTemplates (ctx : TmplCtx) : JVal → JVal
  | .tmpl path =>
    match lookupPath ctx path with
    | some v => v
    | none => .tmpl path
  | .obj fs => .obj (resolveTemplateFields ctx fs)
  | .arr xs => .arr (resolveTemplateArr ctx xs)
  | v => v

/-- Template resolution over an object body. -/
def resolveTemplateFields (ctx : TmplCtx) : List (String × JVal) → List (String × JVal)
  | [] => []
  | (k, v) :: rest => (k, resolveTemplates ctx v) :: resolveTemplateFields ctx rest

/-- Template resolution over an array body. -/
def resolveTemplateArr (ctx : TmplCtx) : List JVal → List JVal
  | [] => []
  | v :: rest => resolveTemplates ctx v :: resolveTemplateArr ctx rest

end

/-- Modelled from the spec: the synthesized default environment set used when
a project declares no environments (§4.5; pinned by the unit tests'
`defaultEnvironments` with `defaultEnvironment = "local"`). -/
def defaultEnvironments : List EnvironmentConfig :=
  [{ name := "local", namespacing := .optional, production := false,
     varfile := none, vars := [], providers := [] }]

/-- Modelled from the spec: `resolveProjectConfig` (§4.5; the implementation
module is not in the source tree, behavior pinned by its unit tests).
Injects the default environment set when none is declared, defaults
`defaultEnvironment` to the first environment's name, populates schema
defaults, resolves template strings on every field except the
provider-config fragments, and rewrites each environment's legacy inline
provider fragments into top-level fragments tagged with that environment's
name, appended after the existing top-level fragments. -/
def resolveProjectConfig (ctx : TmplCtx) (config : ProjectConfig) : ProjectConfig :=
  let envs0 := if config.environments.isEmpty then defaultEnvironments else config.environments
  let defaultEnv :=
    if config.defaultEnvironment == "" then
      match envs0 with
      | e :: _ => e.name
      | [] => "local"
    else config.defaultEnvironment
  let legacy := (envs0.map (fun e =>
    e.providers.map (fun p => { p with environments := some [e.name] }))).flatten
  { name := config.name
    defaultEnvironment := defaultEnv
    environments := envs0.map (fun e =>
      { e with vars := resolveTemplateFields ctx e.vars, providers := [] })
    providers := config.providers ++ legacy
    varfile := some (config.varfile.getD defaultVarfilePath)
    vars := resolveTemplateFields ctx config.vars
    sources := resolveTemplates ctx config.sources }

/-- A raw provider configuration as handed to a resolution task: the provider
name plus the remaining key/value fields (`config.name` is read directly by
the task, the other keys are opaque until validation). -/
structure ProviderCfg where
  name : String
  fields : List (String × JVal) := []
deriving Repr, DecidableEq, Inhabited

/-- A provider environment status, as returned by the status and prepare
handlers: the ready flag and an opaque detail payload. -/
structure EnvStatus where
  ready : Bool
  detail : JVal := .null
deriving Repr, DecidableEq, Inhabited

/-- Modelled from the spec: the default environment status used when a plugin
declares no status handler ("report ready with no detail", §4.6; the
`getEnvironmentStatus` module defining it is not in the source tree). -/
def defaultEnvironmentStatus : EnvStatus := { ready := true, detail := .null }

/-- A fully resolved provider: name, final configuration, resolved dependency
providers, module configs contributed by the plugin, and environment
status. -/
inductive Provider where
  | mk (name : String) (config : List (String × JVal)) (dependencies : List Provider)
      (moduleConfigs : List JVal) (status : EnvStatus)
deriving Repr, Inhabited

/-- Name of a resolved provider. -/
def Provider.name : Provider → String
  | .mk n _ _ _ _ => n

/-- Final configuration of a resolved provider. -/
def Provider.config : Provider → List (String × JVal)
  | .mk _ c _ _ _ => c

/-- Environment status of a resolved provider. -/
def Provider.status : Provider → EnvStatus
  | .mk _ _ _ _ s => s

/-- A structural config schema standing in for the external validation
engine's schemas: the known keys, the required keys, and whether unknown
keys are accepted (`joi`'s `.unknown(true)`). -/
structure Schema where
  allowedKeys : List String := []
  requiredKeys : List String := []
  allowUnknown : Bool := false
deriving Repr, DecidableEq, Inhabited

/-- Modelled from the spec: the external schema-validation engine's
`validate` (§6). Rejects a missing required key, rejects an unknown key
unless the schema accepts unknowns, and otherwise returns the value
unchanged. -/
def validateWithPath (config : List (String × JVal)) (schema : Schema) :
    Except String (List (String × JVal)) :=
  match schema.requiredKeys.find? (fun k => (lookupStr config k).isNone) with
  | some k => .error ("key \"" ++ k ++ "\" is required")
  | none =>
    if schema.allowUnknown then .ok config
    else
      match config.find? (fun p => !schema.allowedKeys.contains p.1) with
      | some p => .error ("key \"" ++ p.1 ++ "\" is not allowed")
      | none => .ok config

/-- Result of a plugin's `configureProvider` handler: the transformed config
and any module configs it attaches. -/
structure ConfigureResult where
  config : List (String × JVal)
  moduleConfigs : List JVal := []

/-- A plugin definition: explicit provider dependencies, optional inheritance
base, optional config schema, and the three optional handlers. Handlers are
total functions of the data the source passes them. -/
structure Plugin where
  name : String
  base : Option String := none
  dependencies : List String := []
  configSchema : Option Schema := none
  configureProvider : Option (List (String × JVal) → ConfigureResult) := none
  getEnvironmentStatus : Option (List (String × JVal) → EnvStatus) := none
  prepareEnvironment : Option (List (String × JVal) → EnvStatus → Bool → EnvStatus) := none

/-- Handler invocations and schema validations performed while resolving one
provider, in order; the instrumented counterpart of the source's calls to
`configureProvider`, `validateWithPath` and the readiness handlers. -/
inductive Event where
  | configure (provider : String)
  | validation (configType : String) (allowUnknown : Bool) (config : List (String × JVal))
  | getStatus (provider : String)
  | prepare (provider : String) (force : Bool)
deriving Repr, DecidableEq

/-- The slice of the `Garden` instance `ResolveProviderTask` reads: the
Resolution Memo (`resolvedProviders`), the project root, the raw provider
configs, the loaded plugins, and the ambient template context (project
variables and secrets). -/
structure Garden where
  resolvedProviders : List (String × Provider) := []
  projectRoot : String := "/project"
  rawProviderConfigs : List ProviderCfg := []
  plugins : List Plugin := []
  baseContext : TmplCtx := []

/-- Modelled from the spec: `getPluginBases` (imported by the task from the
plugins module, which is not in the source tree): the linear ancestor list of
a plugin, following `base` names through the loaded-plugin map; fuelled by
the number of loaded plugins to keep the walk finite. -/
def getPluginBases : Nat → Plugin → List Plugin → List Plugin
  | 0, _, _ => []
  | Nat.succ fuel, plugin, plugins =>
    match plugin.base with
    | none => []
    | some baseName =>
      match plugins.find? (fun p => p.name == baseName) with
      | none => []
      | some b => b :: getPluginBases fuel b plugins

/-- Modelled from the spec: `getPluginBaseNames` (plugins module, not in the
source tree): a plugin name together with the names of its ancestors. -/
def getPluginBaseNames (fuel : Nat) (name : String) (plugins : List Plugin) : List String :=
  match plugins.find? (fun p => p.name == name) with
  | none => [name]
  | some pl => name :: (getPluginBases fuel pl plugins).map (fun p => p.name)

mutual

/-- Template reference paths occurring anywhere inside a value. -/
def templateRefs : JVal → List (List String)
  | .tmpl path => [path]
  | .obj fs => templateRefsFields fs
  | .arr xs => templateRefsArr xs
  | _ => []

/-- Template reference paths inside an object body. -/
def templateRefsFields : List (String × JVal) → List (List String)
  | [] => []
  | (_, v) :: rest => templateRefs v ++ templateRefsFields rest

/-- Template reference paths inside an array body. -/
def templateRefsArr : List JVal → List (List String)
  | [] => []
  | v :: rest => templateRefs v ++ templateRefsArr rest

end

/-- Modelled from the spec: `getProviderTemplateReferences` (provider config
module, not in the source tree): the distinct provider names referenced by
`providers.<name>...` template expressions inside a raw provider config. -/
def getProviderTemplateReferences (fields : List (String × JVal)) : List String :=
  ((templateRefsFields fields).filterMap (fun path =>
    match path with
    | "providers" :: n :: _ => some n
    | _ => none)).dedup

/-- Translated from `ResolveProviderTask.resolveDependencies`: the configured
providers a dependency name matches — those whose name equals it, or whose
plugin inheritance chain contains a plugin of that name. -/
def matchDependencies (rawConfigs : List ProviderCfg) (plugins : List Plugin)
    (depName : String) : List ProviderCfg :=
  rawConfigs.filter (fun c =>
    c.name == depName || (getPluginBaseNames plugins.length c.name plugins).contains depName)

/-- The literal message of the `ConfigurationError` raised for an explicit
dependency that matches no configured provider. -/
def missingDepMessage (providerName depName : String) : String :=
  "Provider '" ++ providerName ++ "' depends on provider '" ++ depName ++
    "', which is not configured. You need to add '" ++ depName ++
    "' to your project configuration for the '" ++ providerName ++ "' to work."

/-- Translated from `ResolveProviderTask.resolveDependencies`: explicit
dependencies come from the plugin, implicit ones from template references in
the raw config minus the explicit ones; every explicit dependency must match
at least one configured provider or resolution fails; the result is the
flattened list of matched configured-provider names in dependency order
(standing in for the sub-task objects the source constructs from exactly
these matches). -/
def resolveDependencies (garden : Garden) (plugin : Plugin) (config : ProviderCfg) :
    Except GError (List String) :=
  let explicitDeps := plugin.dependencies
  let implicitDeps := (getProviderTemplateReferences config.fields).filter
    (fun d => !explicitDeps.contains d)
  let allDeps := explicitDeps ++ implicitDeps
  match explicitDeps.find?
      (fun d => (matchDependencies garden.rawProviderConfigs garden.plugins d).isEmpty) with
  | some depName => .error (.configurationError (missingDepMessage config.name depName))
  | none =>
    .ok ((allDeps.map (fun d =>
      (matchDependencies garden.rawProviderConfigs garden.plugins d).map
        (fun c => c.name))).flatten)

/-- Status reported for a provider: its plugin's environment-status handler
applied to the provider config, or the default ready status when the plugin
declares none. -/
def envStatusOf (plugin : Plugin) (prov : Provider) : EnvStatus :=
  match plugin.getEnvironmentStatus with
  | some h => h prov.config
  | none => defaultEnvironmentStatus

/-- Status returned by the prepare step: the plugin's prepare-environment
handler applied to the config, current status and forced-init flag, or the
current status unchanged when the plugin declares no handler (the source's
default handler returns the captured status). -/
def prepareStatusOf (plugin : Plugin) (prov : Provider) (status : EnvStatus)
    (force : Bool) : EnvStatus :=
  match plugin.prepareEnvironment with
  | some h => h prov.config status force
  | none => status

/-- The literal message of the `PluginError` raised when a provider is still
not ready after the prepare attempt. -/
def notReadyMessage (pluginName : String) : String :=
  "Provider " ++ pluginName ++
    " reports status as not ready and could not prepare the configured environment."

/-- Translated from `ResolveProviderTask.ensurePrepared`: query the status
handler; when the status is not ready or a forced re-init was requested,
invoke the prepare handler and adopt its returned status; fail with a
`PluginError` naming the provider when the final status is still not ready.
The second component is the trace of handler invocations. -/
def ensurePrepared (plugin : Plugin) (prov : Provider) (forceInit : Bool) :
    Except GError EnvStatus × List Event :=
  let pluginName := prov.name
  let status0 := envStatusOf plugin prov
  let (status1, events) :=
    if forceInit || !status0.ready then
      (prepareStatusOf plugin prov status0 forceInit,
        [Event.getStatus pluginName, Event.prepare pluginName forceInit])
    else
      (status0, [Event.getStatus pluginName])
  if !status1.ready then
    (.error (.pluginError (notReadyMessage pluginName)), events)
  else
    (.ok status1, events)

/-- Handler-or-default application of `configureProvider`: the action router
falls back to an identity transform when the plugin declares no handler. -/
def applyConfigureProvider (plugin : Plugin) (config : List (String × JVal)) :
    ConfigureResult :=
  match plugin.configureProvider with
  | some h => h config
  | none => { config := config }

/-- The `configType` string the source passes when validating against the
provider's own plugin schema. -/
def ownConfigType : String := "provider configuration"

/-- The `configType` string the source passes when validating against an
ancestor plugin's schema. -/
def baseConfigType (baseName : String) : String :=
  "provider configuration (base schema from '" ++ baseName ++ "' plugin)"

/-- Translated from the base-schema loop of `ResolveProviderTask.process`:
walk the ancestor list in order, skip bases without a config schema, and
validate the running config (path key omitted) against each base schema with
unknown keys accepted, threading the validated value. -/
def validateBases (bases : List Plugin) (cfg : List (String × JVal)) :
    Except String (List (String × JVal)) × List Event :=
  match bases with
  | [] => (.ok cfg, [])
  | base :: rest =>
    match base.configSchema with
    | none => validateBases rest cfg
    | some s =>
      let s' := { s with allowUnknown := true }
      let ev := Event.validation (baseConfigType base.name) true (omitKey cfg "path")
      match validateWithPath (omitKey cfg "path") s' with
      | .error m => (.error m, [ev])
      | .ok v =>
        match validateBases rest v with
        | (res, evs) => (res, ev :: evs)

/-- Template context for one provider's resolution, exposing the ambient
project context together with the already-resolved dependency providers
(standing in for the source's `ProviderConfigContext`). -/
def providerConfigContext (garden : Garden) (resolved : List Provider) : TmplCtx :=
  garden.baseContext ++ resolved.map (fun p => (["providers", p.name], JVal.obj p.config))

/-- Translated from `ResolveProviderTask.process`: return the memoized
provider when the Resolution Memo already holds one for this name; otherwise
resolve template strings against the dependency context, validate against the
plugin's own schema, set the path key, invoke `configureProvider`,
re-validate its returned config against the same schema, validate it against
every ancestor schema accepting unknown keys, and run the readiness
protocol. The second component is the trace of handler invocations and
validations. -/
def processTask (garden : Garden) (plugin : Plugin) (config : ProviderCfg)
    (forceInit : Bool) (dependencyResults : List Provider) :
    Except GError Provider × List Event :=
  match lookupStr garden.resolvedProviders config.name with
  | some p => (.ok p, [])
  | none =>
    let resolvedProviders := dependencyResults
    let context := providerConfigContext garden resolvedProviders
    let rc0 := resolveTemplateFields context config.fields
    let providerName := config.name
    let ownSchema := plugin.configSchema.getD { allowUnknown := true }
    let ev1 := Event.validation ownConfigType ownSchema.allowUnknown (omitKey rc0 "path")
    match validateWithPath (omitKey rc0 "path") ownSchema with
    | .error m => (.error (.configurationError m), [ev1])
    | .ok v1 =>
      let rc1 := upsert v1 "path" (.str garden.projectRoot)
      let configureOutput := applyConfigureProvider plugin rc1
      let ev2 := Event.validation ownConfigType ownSchema.allowUnknown
        (omitKey configureOutput.config "path")
      match validateWithPath (omitKey configureOutput.config "path") ownSchema with
      | .error m =>
        (.error (.configurationError m), [ev1, Event.configure providerName, ev2])
      | .ok v2 =>
        let rc2 := upsert v2 "path" (.str garden.projectRoot)
        let moduleConfigs := configureOutput.moduleConfigs
        let bases := getPluginBases garden.plugins.length plugin garden.plugins
        match validateBases bases rc2 with
        | (.error m, baseEvents) =>
          (.error (.configurationError m),
            [ev1, Event.configure providerName, ev2] ++ baseEvents)
        | (.ok rc3, baseEvents) =>
          let tmpProvider :=
            Provider.mk providerName rc3 resolvedProviders moduleConfigs
              defaultEnvironmentStatus
          match ensurePrepared plugin tmpProvider forceInit with
          | (.error err, prepEvents) =>
            (.error err, [ev1, Event.configure providerName, ev2] ++ baseEvents ++ prepEvents)
          | (.ok status, prepEvents) =>
            (.ok (Provider.mk providerName rc3 resolvedProviders moduleConfigs status),
              [ev1, Event.configure providerName, ev2] ++ baseEvents ++ prepEvents)

/-- Modelled from the spec: the Resolution Memo write the task's caller
performs (§4.6 "inserted into the Resolution Memo before being handed to
callers"; the `Garden` class owning the memo is not in the source tree). A
produced provider is recorded under its name before being returned; a name
already present is never overwritten (write-once). -/
def resolveProviderMemo (garden : Garden) (plugin : Plugin) (config : ProviderCfg)
    (forceInit : Bool) (dependencyResults : List Provider) :
    Except GError (Garden × Provider) × List Event :=
  match processTask garden plugin config forceInit dependencyResults with
  | (.error e, evs) => (.error e, evs)
  | (.ok p, evs) =>
    if (lookupStr garden.resolvedProviders config.name).isSome then
      (.ok (garden, p), evs)
    else
      (.ok ({ garden with
          resolvedProviders := garden.resolvedProviders ++ [(config.name, p)] }, p),
        evs)

/-- Modelled from the spec: the client auth token store (`src/cloud/auth.ts`
is not in the source tree; behavior pinned by its unit tests). The store is
the ordered list of persisted token rows. `saveAuthToken` clears the table
and inserts the new token in one transaction. -/
def saveAuthToken (token : String) (_db : List String) : List String :=
  [token]

/-- Modelled from the spec: `readAuthToken` (not in the source tree; behavior
pinned by its unit tests). A `GARDEN_AUTH_TOKEN` environment value wins
outright; otherwise the first persisted row is returned and, when several
rows erroneously exist, the surplus rows are deleted down to one. -/
def readAuthToken (envToken : Option String) (db : List String) :
    Option String × List String :=
  match envToken with
  | some t => (some t, db)
  | none =>
    if db.length > 1 then (db.head?, db.take 1) else (db.head?, db)

/-- Modelled from the spec: `clearAuthToken` (not in the source tree;
behavior pinned by its unit tests): delete every token row; a total
operation, succeeding also on an empty store. -/
def clearAuthToken (_db : List String) : List String :=
  []

/-- One call against the auth token store. -/
inductive AuthOp where
  | save (token : String)
  | readTok (envToken : Option String)
  | clear
deriving Repr, DecidableEq

/-- State of the store after one call. -/
def applyAuthOp (db : List String) : AuthOp → List String
  | .save t => saveAuthToken t db
  | .readTok env => (readAuthToken env db).2
  | .clear => clearAuthToken db

/-- State of the store after a sequence of calls. -/
def applyAuthOps (db : List String) (ops : List AuthOp) : List String :=
  ops.foldl applyAuthOp db

/-- One fold step of name deduplication: a name already seen is dropped, a
fresh name is appended. -/
def dedupStep (acc : List String) (n : String) : List String :=
  if acc.any (fun m => m == n) then acc else acc ++ [n]

/-- Distinct names of a list in first-seen order. -/
def dedupKeepFirst (names : List String) : List String :=
  names.foldl dedupStep []

/-- Provider record used in the memoization fixtures. -/
def witProvider : Provider := Provider.mk "p" [] [] [] { ready := true }

/-- Garden whose Resolution Memo already holds `witProvider` under "p". -/
def witGarden : Garden := { resolvedProviders := [("p", witProvider)] }

/-- Provider produced by resolving "p" with the trivial plugin from an empty
memo (template-free config, no schema, no handlers). -/
def witProviderFresh : Provider :=
  Provider.mk "p" [("path", .str "/project")] [] [] { ready := true }

/-- Plugin reporting not ready and becoming ready after prepare, used in the
readiness witness. -/
def prepPlugin : Plugin :=
  { name := "p"
    getEnvironmentStatus := some (fun _ => { ready := false })
    prepareEnvironment := some (fun _ _ _ => { ready := true }) }

/-- Project config with a non-default project varfile that does not exist
(unit test at part_000:748). -/
def cfg748 : ProjectConfig :=
  { name := "my-project"
    defaultEnvironment := "default"
    environments := [{ name := "default" }]
    varfile := some "foo.env" }

/-- Project config with a non-default environment varfile that does not
exist (unit test at part_000:773). -/
def cfg773 : ProjectConfig :=
  { name := "my-project"
    defaultEnvironment := "default"
    environments := [{ name := "default", varfile := some "foo.env" }] }

/-- Minimal project config with one environment and no providers (unit
tests at part_000:410 and part_000:748 share this shape). -/
def cfgBasic : ProjectConfig :=
  { name := "my-project"
    defaultEnvironment := "default"
    environments := [{ name := "default" }] }

/-- File system of the four-source precedence unit test
(part_000:693): default environment varfile and default project varfile. -/
def fs693 : FileSystem :=
  [("garden.default.env", [("d", .str "D"), ("e", .str "e")]),
   ("garden.env", [("b", .str "B"), ("c", .str "c")])]

/-- Project config of the four-source precedence unit test (part_000:693). -/
def cfg693 : ProjectConfig :=
  { name := "my-project"
    defaultEnvironment := "default"
    environments := [{ name := "default", vars := [("c", .str "C"), ("d", .str "d")] }]
    vars := [("a", .str "a"), ("b", .str "b")] }

/-- Project config of the nested/array variable merge unit test
(part_000:486). -/
def cfg486 : ProjectConfig :=
  { name := "my-project"
    defaultEnvironment := "default"
    environments := [{ name := "default", vars :=
      [("b", .str "env value B"), ("c", .str "env value C"),
       ("array", .arr [.obj [("envArrayKey", .str "env array value")]]),
       ("nested", .obj [("nestedB", .str "nested env value B"),
         ("nestedC", .str "nested env value C")])] }]
    vars :=
      [("a", .str "project value A"), ("b", .str "project value B"),
       ("array", .arr [.obj [("projectArrayKey", .str "project array value")]]),
       ("nested", .obj [("nestedA", .str "nested project value A"),
         ("nestedB", .str "nested project value B")])] }

/-- Project config of the JSON-Merge-Patch provider merge unit test
(part_000:432): a user fragment for built-in "container" plus three
fragments for "my-provider". -/
def cfg432 : ProjectConfig :=
  { name := "my-project"
    defaultEnvironment := "default"
    environments := [{ name := "default" }]
    providers := [⟨"container", none, [("newKey", .str "foo")]⟩,
      ⟨"my-provider", none, [("a", .str "a")]⟩,
      ⟨"my-provider", none, [("b", .str "b")]⟩,
      ⟨"my-provider", none, [("a", .str "c")]⟩] }

/-- Output the unit test at part_000:432 expects for `cfg432`. -/
def res432 : ResolvedEnvironment :=
  { environmentName := "default"
    namespc := none
    production := false
    providers := [⟨"exec", none, []⟩, ⟨"container", none, [("newKey", .str "foo")]⟩,
      ⟨"my-provider", none, [("a", .str "c"), ("b", .str "b")]⟩]
    vars := [] }

/-- Project config of the null-deletion provider merge unit test
(part_000:459). -/
def cfg459 : ProjectConfig :=
  { name := "my-project"
    defaultEnvironment := "default"
    environments := [{ name := "default" }]
    providers := [⟨"container", none, [("newKey", .str "foo")]⟩,
      ⟨"my-provider", none, [("a", .str "a")]⟩,
      ⟨"my-provider", none, [("b", .str "b")]⟩,
      ⟨"my-provider", none, [("a", JVal.null)]⟩] }

/-- Template context of the template-resolution unit test (part_000:81):
`local.env.TEST_ENV_VAR` and `local.platform` are bound. -/
def ctx81 : TmplCtx :=
  [(["local", "env", "TEST_ENV_VAR"], .str "foo"),
   (["local", "platform"], .str "test-platform")]

/-- Raw project config of the template-resolution unit test (part_000:81):
template expressions in the project variables, an environment's variables
and a source name. -/
def cfg81 : ProjectConfig :=
  { name := "my-project"
    defaultEnvironment := "default"
    environments := [{ name := "default"
                       vars := [("envVar", .tmpl ["local", "env", "TEST_ENV_VAR"])] }]
    providers := [⟨"some-provider", none, []⟩]
    sources := .arr [.obj [("name", .tmpl ["local", "env", "TEST_ENV_VAR"]),
      ("repositoryUrl", .str "git://github.com/foo/bar.git#boo")]]
    vars := [("platform", .tmpl ["local", "platform"])] }

/-- Template context of the provider pass-through unit test (part_000:142). -/
def ctx142 : TmplCtx :=
  [(["local", "env", "TEST_ENV_VAR_A"], .str "foo"),
   (["local", "env", "TEST_ENV_VAR_B"], .str "boo")]

/-- Raw project config of the provider pass-through unit test
(part_000:142): provider fragments carrying template expressions. -/
def cfg142 : ProjectConfig :=
  { name := "my-project"
    defaultEnvironment := "default"
    environments := [{ name := "default", vars := [("envVar", .str "foo")] }]
    providers := [⟨"provider-a", none,
        [("someKey", .tmpl ["local", "env", "TEST_ENV_VAR_A"])]⟩,
      ⟨"provider-b", some ["default"],
        [("someKey", .tmpl ["local", "env", "TEST_ENV_VAR_B"])]⟩] }

/-- Config returned by the `configureProvider` handler during a fresh
resolution, with the path key omitted — the value the source re-validates
against the plugin's own schema and every base schema. -/
def postConfigureConfig (garden : Garden) (plugin : Plugin) (config : ProviderCfg)
    (deps : List Provider) : List (String × JVal) :=
  omitKey (applyConfigureProvider plugin
    (upsert (omitKey (resolveTemplateFields (providerConfigContext garden deps) config.fields)
      "path") "path" (.str garden.projectRoot))).config "path"

/-- Plugin with a two-level inheritance chain used in the re-validation
fixture: own schema knowing "name" and "foo", configure handler adding
"foo". -/
def chainPlugin : Plugin :=
  { name := "p"
    base := some "m"
    configSchema := some { allowedKeys := ["name", "foo"] }
    configureProvider := some (fun c => { config := upsert c "foo" (.str "bar") }) }

/-- Middle base plugin without a config schema (skipped by validation). -/
def chainMidPlugin : Plugin := { name := "m", base := some "b" }

/-- Root base plugin with a config schema. -/
def chainBasePlugin : Plugin := { name := "b", configSchema := some { allowedKeys := [] } }

/-- Garden loading the three chain plugins. -/
def chainGarden : Garden := { plugins := [chainPlugin, chainMidPlugin, chainBasePlugin] }

/-! Helper lemmas about the association-list primitives. -/

theorem lookupStr_omitKey {α : Type} (m : List (String × α)) (k : String) :
    lookupStr (omitKey m k) k = none := by
  unfold lookupStr
  rw [List.find?_eq_none.mpr]
  intro p hp
  simp only [omitKey, List.mem_filter, bne_iff_ne, ne_eq] at hp
  simp [hp.2]

theorem lookupStr_any_eq_false {α : Type} (m : List (String × α)) (k : String)
    (h : m.any (fun p => p.1 == k) = false) : lookupStr m k = none := by
  unfold lookupStr
  rw [List.find?_eq_none.mpr]
  intro p hp hpk
  have hany : m.any (fun q => q.1 == k) = true := List.any_eq_true.mpr ⟨p, hp, hpk⟩
  rw [hany] at h
  exact absurd h (by simp)

theorem lookupStr_upsert {α : Type} (m : List (String × α)) (k : String) (v : α) :
    lookupStr (upsert m k v) k = some v := by
  unfold upsert
  by_cases h : m.any (fun p => p.1 == k) = true
  · simp only [h, if_true]
    induction m with
    | nil => simp at h
    | cons p rest ih =>
      rw [List.any_cons] at h
      by_cases hp : p.1 = k
      · simp [lookupStr, hp]
      · have hr : rest.any (fun q => q.1 == k) = true := by
          rcases Bool.or_eq_true_iff.mp h with h1 | h1
          · exact absurd (by simpa using h1) hp
          · exact h1
        have := ih hr
        simpa [lookupStr, List.find?_cons, hp] using this
  · rw [if_neg h]
    have hm : lookupStr m k = none := lookupStr_any_eq_false m k (Bool.eq_false_iff.mpr h)
    unfold lookupStr at hm ⊢
    rw [List.find?_append]
    cases hfind : m.find? (fun p => p.1 == k) with
    | some q => rw [hfind] at hm; exact absurd hm (by simp)
    | none => simp

theorem omitKey_upsert {α : Type} (m : List (String × α)) (k : String) (v : α) :
    omitKey (upsert m k v) k = omitKey m k := by
  unfold upsert
  by_cases h : m.any (fun p => p.1 == k) = true
  · simp only [h, if_true, omitKey]
    rw [List.filter_map]
    have hcomp : ((fun p : String × α => p.1 != k) ∘ fun p => if p.1 == k then (p.1, v) else p)
        = fun p : String × α => p.1 != k := by
      funext q
      by_cases hq : q.1 = k <;> simp [Function.comp, hq]
    rw [hcomp]
    have hfix : ∀ q ∈ List.filter (fun p : String × α => p.1 != k) m,
        (if q.1 == k then (q.1, v) else q) = q := by
      intro q hq
      simp only [List.mem_filter, bne_iff_ne, ne_eq] at hq
      simp [hq.2]
    rw [List.map_congr_left hfix]
    simp
  · rw [if_neg h]
    simp [omitKey, List.filter_append]

theorem omitKey_idem {α : Type} (m : List (String × α)) (k : String) :
    omitKey (omitKey m k) k = omitKey m k := by
  simp [omitKey, List.filter_filter]

theorem lookupStr_append_right {α : Type} (m : List (String × α)) (k : String) (v : α)
    (h : lookupStr m k = none) : lookupStr (m ++ [(k, v)]) k = some v := by
  unfold lookupStr at h ⊢
  rw [List.find?_append]
  cases hfind : m.find? (fun p => p.1 == k) with
  | some q => rw [hfind] at h; exact absurd h (by simp)
  | none => simp

/-- Successful validation returns the config unchanged. -/
theorem validateWithPath_ok_eq (config : List (String × JVal)) (schema : Schema)
    (out : List (String × JVal)) (h : validateWithPath config schema = .ok out) :
    out = config := by
  unfold validateWithPath at h
  split at h
  · exact absurd h (by simp)
  · split at h
    · exact (Except.ok.inj h).symm
    · split at h
      · exact absurd h (by simp)
      · exact (Except.ok.inj h).symm

/-- On success, the base-schema loop validated the (path-omitted) input
config once per schema-bearing base, in base order, always with unknown keys
accepted, and returned the config unchanged up to omission of the path
key. -/
theorem validateBases_ok (bases : List Plugin) (cfg cfg' : List (String × JVal))
    (evs : List Event) (h : validateBases bases cfg = (.ok cfg', evs)) :
    evs = (bases.filter (fun b => b.configSchema.isSome)).map
      (fun b => Event.validation (baseConfigType b.name) true (omitKey cfg "path")) ∧
    (cfg' = cfg ∨ cfg' = omitKey cfg "path") := by
  induction bases generalizing cfg evs with
  | nil =>
    unfold validateBases at h
    obtain ⟨h1, h2⟩ := Prod.mk.injEq .. ▸ h
    exact ⟨by simp [h2.symm], Or.inl (Except.ok.inj h1).symm⟩
  | cons b rest ih =>
    unfold validateBases at h
    cases hbs : b.configSchema with
    | none =>
      rw [hbs] at h
      dsimp only at h
      obtain ⟨hevs, hcfg⟩ := ih cfg evs h
      exact ⟨by simp [List.filter_cons, hbs, hevs], hcfg⟩
    | some s =>
      rw [hbs] at h
      dsimp only at h
      cases hv : validateWithPath (omitKey cfg "path") { s with allowUnknown := true } with
      | error m => rw [hv] at h; exact absurd h (by simp)
      | ok v =>
        rw [hv] at h
        dsimp only at h
        have hveq : v = omitKey cfg "path" :=
          validateWithPath_ok_eq _ _ _ hv
        cases hrec : validateBases rest v with
        | mk res evs₀ =>
          rw [hrec] at h
          obtain ⟨h1, h2⟩ := Prod.mk.injEq .. ▸ h
          simp only at h1 h2
          rw [h1] at hrec
          obtain ⟨hevs, hcfg⟩ := ih v evs₀ hrec
          have homit : omitKey v "path" = omitKey cfg "path" := by
            rw [hveq, omitKey_idem]
          constructor
          · rw [← h2, hevs, List.filter_cons]
            simp [hbs, homit]
          · rcases hcfg with hc | hc
            · exact Or.inr (hc.trans hveq)
            · exact Or.inr (hc.trans homit)

/-- Merging one fragment into the accumulator acts on the name list as one
deduplication step: patch-merging into an existing group keeps the names,
a fresh name is appended. -/
theorem mergeFragmentInto_map_name (acc : List ProviderFragment) (p : ProviderFragment) :
    (mergeFragmentInto acc p).map (fun q => q.name) =
      dedupStep (acc.map (fun q => q.name)) p.name := by
  unfold mergeFragmentInto dedupStep
  have hany : (acc.map (fun q => q.name)).any (fun m => m == p.name)
      = acc.any (fun q => q.name == p.name) := by
    induction acc with
    | nil => rfl
    | cons q rest ih => simp [List.any_cons, ih]
  rw [hany]
  by_cases h : acc.any (fun q => q.name == p.name) = true
  · rw [if_pos h, if_pos h, List.map_map]
    apply List.map_congr_left
    intro q _
    by_cases hq : q.name = p.name <;> simp [Function.comp, hq]
  · rw [if_neg h, if_neg h]
    simp

/-- The names of a patch-merged fragment list are the deduplicated names of
the input, relative to any accumulator. -/
theorem mergeFragments_foldl_map_name (ps : List ProviderFragment)
    (acc : List ProviderFragment) :
    ((ps.foldl mergeFragmentInto acc).map (fun q => q.name)) =
      (ps.map (fun q => q.name)).foldl dedupStep (acc.map (fun q => q.name)) := by
  induction ps generalizing acc with
  | nil => rfl
  | cons p rest ih =>
    simp only [List.foldl_cons, List.map_cons]
    rw [ih (mergeFragmentInto acc p), mergeFragmentInto_map_name]

/-- Folding deduplication steps only ever appends: the accumulator is a
prefix of the result. -/
theorem dedupStep_foldl_prefix (l : List String) :
    ∀ acc : List String, acc <+: l.foldl dedupStep acc := by
  induction l with
  | nil => intro acc; exact List.prefix_refl acc
  | cons n rest ih =>
    intro acc
    refine List.IsPrefix.trans ?_ (ih (dedupStep acc n))
    unfold dedupStep
    by_cases h : acc.any (fun m => m == n) = true
    · rw [if_pos h]
    · rw [if_neg h]; exact ⟨[n], rfl⟩

/-- Provider names produced by the provider pipeline: the fixed built-in
names followed by the user-declared names, deduplicated first-seen. -/
theorem pickEnvironmentProviders_names (ps : List ProviderFragment) (env : String) :
    (pickEnvironmentProviders ps env).map (fun q => q.name) =
      dedupKeepFirst (fixedPlugins ++ (filterFragments ps env).map (fun q => q.name)) := by
  unfold pickEnvironmentProviders mergeFragments dedupKeepFirst
  rw [mergeFragments_foldl_map_name]
  simp only [List.map_nil, List.map_append, List.map_map, List.foldl_append]
  rfl

/-- Positional merge yields the length of the longer input. -/
theorem deepMergeArr_length : ∀ xs ys : List JVal,
    (deepMergeArr xs ys).length = max xs.length ys.length
  | [], ys => by simp [deepMergeArr]
  | _ :: _, [] => by simp [deepMergeArr]
  | x :: xs, y :: ys => by
    simp only [deepMergeArr, List.length_cons, deepMergeArr_length xs ys]
    omega

/-- Within both inputs, element i of the positional merge is the deep merge
of the two elements at i. -/
theorem deepMergeArr_getD_both : ∀ (xs ys : List JVal) (i : Nat),
    i < xs.length → i < ys.length →
    (deepMergeArr xs ys).getD i .null = deepMerge (xs.getD i .null) (ys.getD i .null)
  | [], _, i => by intro h _; exact absurd h (by simp)
  | _ :: _, [], i => by intro _ h; exact absurd h (by simp)
  | x :: xs, y :: ys, 0 => by intro _ _; simp [deepMergeArr]
  | x :: xs, y :: ys, i + 1 => by
    intro h1 h2
    simpa [deepMergeArr] using
      deepMergeArr_getD_both xs ys i (by simpa using h1) (by simpa using h2)

/-- Past the end of the later source, the earlier source's elements survive
unchanged (the shorter sequence is extended, not truncated). -/
theorem deepMergeArr_getD_left : ∀ (xs ys : List JVal) (i : Nat),
    ys.length ≤ i → i < xs.length →
    (deepMergeArr xs ys).getD i .null = xs.getD i .null
  | [], _, i => by intro _ h; exact absurd h (by simp)
  | _ :: _, [], i => by intro _ _; simp [deepMergeArr]
  | x :: xs, y :: ys, 0 => by intro h _; exact absurd h (by simp)
  | x :: xs, y :: ys, i + 1 => by
    intro h1 h2
    simpa [deepMergeArr] using
      deepMergeArr_getD_left xs ys i (by simpa using h1) (by simpa using h2)

/-- Past the end of the earlier source, the later source's elements survive
unchanged. -/
theorem deepMergeArr_getD_right : ∀ (xs ys : List JVal) (i : Nat),
    xs.length ≤ i → i < ys.length →
    (deepMergeArr xs ys).getD i .null = ys.getD i .null
  | [], _, i => by intro _ _; simp [deepMergeArr]
  | _ :: _, [], i => by intro _ h; exact absurd h (by simp)
  | x :: xs, y :: ys, 0 => by intro h _; exact absurd h (by simp)
  | x :: xs, y :: ys, i + 1 => by
    intro h1 h2
    simpa [deepMergeArr] using
      deepMergeArr_getD_right xs ys i (by simpa using h1) (by simpa using h2)

/-! Concrete fixtures taken verbatim from the repository's unit tests. -/

/-! Claim theorems. -/

/-- C1: for every provider name, a Resolution Memo hit makes
`ResolveProviderTask.process` return the memoized provider unchanged with no
handler or validation invocations at all; and every provider produced is
recorded in the memo before being handed back, so that a second resolution
of the same name returns the recorded provider without invoking anything —
at-most-once resolution per provider name per run. -/
theorem resolve_provider_memoized :
    (∀ (garden : Garden) (plugin : Plugin) (config : ProviderCfg) (forceInit : Bool)
        (deps : List Provider) (p : Provider),
      lookupStr garden.resolvedProviders config.name = some p →
      processTask garden plugin config forceInit deps = (.ok p, [])) ∧
    (∀ (garden g' : Garden) (plugin : Plugin) (config : ProviderCfg) (forceInit : Bool)
        (deps : List Provider) (p : Provider) (evs : List Event),
      resolveProviderMemo garden plugin config forceInit deps = (.ok (g', p), evs) →
      lookupStr g'.resolvedProviders config.name = some p ∧
      resolveProviderMemo g' plugin config forceInit deps = (.ok (g', p), [])) := by
  have part1 : ∀ (garden : Garden) (plugin : Plugin) (config : ProviderCfg) (forceInit : Bool)
      (deps : List Provider) (p : Provider),
      lookupStr garden.resolvedProviders config.name = some p →
      processTask garden plugin config forceInit deps = (.ok p, []) := by
    intro garden plugin config forceInit deps p h
    unfold processTask
    rw [h]
  refine ⟨part1, ?_⟩
  intro garden g' plugin config forceInit deps p evs h
  unfold resolveProviderMemo at h
  cases hpt : processTask garden plugin config forceInit deps with
  | mk res evs' =>
    cases res with
    | error e =>
      rw [hpt] at h
      exact absurd h (by simp)
    | ok q =>
      rw [hpt] at h
      dsimp only at h
      by_cases hm : (lookupStr garden.resolvedProviders config.name).isSome
      · rw [if_pos hm] at h
        simp only [Prod.mk.injEq, Except.ok.injEq] at h
        obtain ⟨⟨hg, hp⟩, hevs⟩ := h
        obtain ⟨pm, hpm⟩ := Option.isSome_iff_exists.mp hm
        have hpt1 := part1 garden plugin config forceInit deps pm hpm
        rw [hpt] at hpt1
        simp only [Prod.mk.injEq, Except.ok.injEq] at hpt1
        obtain ⟨hqm, -⟩ := hpt1
        rw [← hqm] at hpm
        subst hg hp
        refine ⟨hpm, ?_⟩
        unfold resolveProviderMemo
        rw [part1 garden plugin config forceInit deps q hpm]
        dsimp only
        rw [if_pos hm]
      · rw [if_neg hm] at h
        simp only [Prod.mk.injEq, Except.ok.injEq] at h
        obtain ⟨⟨hg, hp⟩, hevs⟩ := h
        have hnone : lookupStr garden.resolvedProviders config.name = none :=
          Option.not_isSome_iff_eq_none.mp hm
        have hlq : lookupStr g'.resolvedProviders config.name = some p := by
          rw [← hg, ← hp]
          exact lookupStr_append_right _ _ _ hnone
        refine ⟨hlq, ?_⟩
        unfold resolveProviderMemo
        rw [part1 g' plugin config forceInit deps p hlq]
        dsimp only
        rw [if_pos (by rw [hlq]; rfl)]

/-- Concrete instance of the memoization claim: a memo hit returns the
stored provider with an empty invocation trace, and a fresh resolution
records its provider in the memo and is served from the memo on a second
run. -/
theorem resolve_provider_memoized_witness :
    (lookupStr witGarden.resolvedProviders "p" = some witProvider ∧
      processTask witGarden { name := "p" } { name := "p" } false [] = (.ok witProvider, [])) ∧
    (lookupStr ({ resolvedProviders := [("p", witProviderFresh)] } : Garden).resolvedProviders
        "p" = some witProviderFresh ∧
      resolveProviderMemo { resolvedProviders := [("p", witProviderFresh)] }
        { name := "p" } { name := "p" } false [] =
        (.ok ({ resolvedProviders := [("p", witProviderFresh)] }, witProviderFresh), [])) :=
  ⟨⟨rfl, resolve_provider_memoized.1 witGarden { name := "p" } { name := "p" } false []
      witProvider rfl⟩,
    resolve_provider_memoized.2 ({} : Garden) { resolvedProviders := [("p", witProviderFresh)] }
      { name := "p" } { name := "p" } false [] witProviderFresh
      [Event.validation ownConfigType true [], Event.configure "p",
        Event.validation ownConfigType true [], Event.getStatus "p"] rfl⟩

/-- C3: the readiness protocol queries the status handler first; the prepare
handler is invoked exactly when the reported status is not ready or a forced
re-init was requested, and its returned status is adopted as the final one;
a still-not-ready final status fails with a `PluginError` carrying the
provider's name (and can only arise after a prepare attempt), and otherwise
the final status is returned. -/
theorem readiness_protocol (plugin : Plugin) (prov : Provider) (forceInit : Bool) :
    ((Event.prepare prov.name forceInit ∈ (ensurePrepared plugin prov forceInit).2) ↔
      (forceInit || !(envStatusOf plugin prov).ready) = true) ∧
    ((ensurePrepared plugin prov forceInit).2.head? = some (Event.getStatus prov.name)) ∧
    (∀ s1 : EnvStatus,
      s1 = (if (forceInit || !(envStatusOf plugin prov).ready) = true
        then prepareStatusOf plugin prov (envStatusOf plugin prov) forceInit
        else envStatusOf plugin prov) →
      (s1.ready = true → (ensurePrepared plugin prov forceInit).1 = .ok s1) ∧
      (s1.ready = false →
        (ensurePrepared plugin prov forceInit).1 =
          .error (.pluginError (notReadyMessage prov.name)) ∧
        (forceInit || !(envStatusOf plugin prov).ready) = true)) := by
  by_cases hd : (forceInit || !(envStatusOf plugin prov).ready) = true
  · have hcalc : ensurePrepared plugin prov forceInit =
        (if !(prepareStatusOf plugin prov (envStatusOf plugin prov) forceInit).ready then
          (.error (.pluginError (notReadyMessage prov.name)),
            [Event.getStatus prov.name, Event.prepare prov.name forceInit])
        else
          (.ok (prepareStatusOf plugin prov (envStatusOf plugin prov) forceInit),
            [Event.getStatus prov.name, Event.prepare prov.name forceInit])) := by
      unfold ensurePrepared
      dsimp only
      rw [if_pos hd]
    refine ⟨?_, ?_, ?_⟩
    · rw [hcalc]
      constructor
      · intro _; exact hd
      · intro _
        by_cases hr : (prepareStatusOf plugin prov (envStatusOf plugin prov) forceInit).ready
        · simp [hr]
        · simp [hr]
    · rw [hcalc]
      by_cases hr : (prepareStatusOf plugin prov (envStatusOf plugin prov) forceInit).ready
      · simp [hr]
      · simp [hr]
    · intro s1 hs1
      rw [if_pos hd] at hs1
      subst hs1
      constructor
      · intro hr
        rw [hcalc]
        simp [hr]
      · intro hr
        rw [hcalc]
        simp [hr, hd]
  · have hready : (envStatusOf plugin prov).ready = true := by
      rcases Bool.not_eq_true _ ▸ hd with h
      simp only [Bool.or_eq_true, Bool.not_eq_true'] at h
      rcases Bool.or_eq_false_iff.mp (Bool.not_eq_true _ ▸ hd) with ⟨-, h2⟩
      simpa using h2
    have hcalc : ensurePrepared plugin prov forceInit =
        (.ok (envStatusOf plugin prov), [Event.getStatus prov.name]) := by
      unfold ensurePrepared
      dsimp only
      rw [if_neg hd]
      dsimp only
      rw [if_neg (by simp [hready])]
    refine ⟨?_, ?_, ?_⟩
    · rw [hcalc]
      constructor
      · intro hmem; exact absurd hmem (by simp)
      · intro hc; exact absurd hc hd
    · rw [hcalc]
      rfl
    · intro s1 hs1
      rw [if_neg hd] at hs1
      subst hs1
      refine ⟨fun _ => by rw [hcalc], fun hr => absurd hready (by simp [hr])⟩

/-- Concrete instance of the readiness protocol: a not-ready status triggers
the prepare handler, whose ready status is adopted and returned. -/
theorem readiness_protocol_witness :
    (ensurePrepared prepPlugin witProvider false).1 = .ok { ready := true, detail := .null } ∧
    (Event.prepare "p" false ∈ (ensurePrepared prepPlugin witProvider false).2) :=
  ⟨((readiness_protocol prepPlugin witProvider false).2.2
      { ready := true, detail := .null } rfl).1 rfl,
    (readiness_protocol prepPlugin witProvider false).1.mpr rfl⟩

/-- C4: an explicit plugin dependency that matches no configured provider,
neither by name nor through any configured provider's plugin-inheritance
chain, makes `resolveDependencies` fail with a `ConfigurationError` whose
message names both the current provider and the missing dependency. -/
theorem missing_dependency_error (garden : Garden) (plugin : Plugin) (config : ProviderCfg)
    (d : String) (hd : d ∈ plugin.dependencies)
    (hmiss : matchDependencies garden.rawProviderConfigs garden.plugins d = []) :
    ∃ d', d' ∈ plugin.dependencies ∧
      matchDependencies garden.rawProviderConfigs garden.plugins d' = [] ∧
      resolveDependencies garden plugin config =
        .error (.configurationError (missingDepMessage config.name d')) ∧
      ∃ s₁ s₂ s₃ s₄ s₅,
        missingDepMessage config.name d' =
          s₁ ++ config.name ++ s₂ ++ d' ++ s₃ ++ d' ++ s₄ ++ config.name ++ s₅ := by
  have hsome : (plugin.dependencies.find?
      (fun x => (matchDependencies garden.rawProviderConfigs garden.plugins x).isEmpty)).isSome := by
    apply List.find?_isSome.mpr
    exact ⟨d, hd, by simp [hmiss]⟩
  obtain ⟨d₀, hfind⟩ := Option.isSome_iff_exists.mp hsome
  have hmem : d₀ ∈ plugin.dependencies := List.mem_of_find?_eq_some hfind
  have hempty : matchDependencies garden.rawProviderConfigs garden.plugins d₀ = [] := by
    have := List.find?_some hfind
    simpa [List.isEmpty_iff] using this
  refine ⟨d₀, hmem, hempty, ?_, ?_⟩
  · unfold resolveDependencies
    dsimp only
    rw [hfind]
  · exact ⟨"Provider '", "' depends on provider '",
      "', which is not configured. You need to add '",
      "' to your project configuration for the '", "' to work.",
      by simp [missingDepMessage, String.append_assoc]⟩

/-- Concrete instance of the missing-dependency error: a plugin declaring
dependency "missing" in a project configuring no providers. -/
theorem missing_dependency_error_witness :
    ∃ d', d' ∈ ["missing"] ∧
      matchDependencies ({} : Garden).rawProviderConfigs ({} : Garden).plugins d' = [] ∧
      resolveDependencies {} { name := "x", dependencies := ["missing"] } { name := "x" } =
        .error (.configurationError (missingDepMessage "x" d')) ∧
      ∃ s₁ s₂ s₃ s₄ s₅,
        missingDepMessage "x" d' = s₁ ++ "x" ++ s₂ ++ d' ++ s₃ ++ d' ++ s₄ ++ "x" ++ s₅ :=
  missing_dependency_error {} { name := "x", dependencies := ["missing"] } { name := "x" }
    "missing" (by simp) rfl

/-- C10: the client auth token store holds at most one row: `saveAuthToken`
replaces any existing token instead of adding a second, `readAuthToken`
(without an environment override) prunes erroneous surplus rows down to one,
`clearAuthToken` is total and succeeds on an empty store, and every
operation preserves the at-most-one-row invariant, so any call sequence
from a conforming store leaves at most one persisted token. -/
theorem auth_token_at_most_one :
    (∀ (db : List String) (op : AuthOp), db.length ≤ 1 → (applyAuthOp db op).length ≤ 1) ∧
    (∀ (ops : List AuthOp) (db : List String), db.length ≤ 1 →
      (applyAuthOps db ops).length ≤ 1) ∧
    (∀ (t : String) (db : List String), saveAuthToken t db = [t]) ∧
    (∀ db : List String, 1 < db.length →
      (readAuthToken none db).2 = db.take 1 ∧ (readAuthToken none db).2.length = 1) ∧
    (clearAuthToken [] = []) := by
  have hop : ∀ (db : List String) (op : AuthOp), db.length ≤ 1 →
      (applyAuthOp db op).length ≤ 1 := by
    intro db op h
    cases op with
    | save t => simp [applyAuthOp, saveAuthToken]
    | readTok env =>
      cases env with
      | some t => simpa [applyAuthOp, readAuthToken] using h
      | none =>
        by_cases hl : db.length > 1
        · simp [applyAuthOp, readAuthToken, hl, List.length_take]
        · simpa [applyAuthOp, readAuthToken, hl] using h
    | clear => simp [applyAuthOp, clearAuthToken]
  refine ⟨hop, ?_, fun t db => rfl, ?_, rfl⟩
  · intro ops
    induction ops with
    | nil => intro db h; simpa [applyAuthOps] using h
    | cons op rest ih =>
      intro db h
      simpa [applyAuthOps, List.foldl_cons] using ih (applyAuthOp db op) (hop db op h)
  · intro db hl
    refine ⟨by simp [readAuthToken, hl], ?_⟩
    simp only [readAuthToken, hl, if_pos, List.length_take]
    omega

/-- Concrete instance of the auth-token invariant: a save/save/read/clear
sequence from an empty store, and pruning of an erroneous three-row store. -/
theorem auth_token_at_most_one_witness :
    (applyAuthOps [] [AuthOp.save "token-a", AuthOp.save "token-b", AuthOp.readTok none,
        AuthOp.clear]).length ≤ 1 ∧
    (readAuthToken none ["token-1", "token-2", "token-3"]).2 =
      ["token-1", "token-2", "token-3"].take 1 :=
  ⟨auth_token_at_most_one.2.1 _ [] (by decide),
    (auth_token_at_most_one.2.2.2.1 ["token-1", "token-2", "token-3"] (by decide)).1⟩

/-- C8: a varfile left at its default path that is absent yields an empty
variable mapping and selection succeeds, while an explicitly configured
non-default varfile path that is absent fails selection with a
`ConfigurationError` whose message carries the configured path verbatim. -/
theorem varfile_absence_handling :
    (∀ (fs : FileSystem) (dflt : String), lookupStr fs dflt = none →
      loadVarfile fs none dflt = .ok []) ∧
    (∀ (fs : FileSystem) (p dflt : String), lookupStr fs p = none → p ≠ dflt →
      loadVarfile fs (some p) dflt =
        .error (.configurationError ("Could not find varfile at path '" ++ p ++ "'"))) ∧
    (pickEnvironment [] cfg748 "default" =
      .error (.configurationError "Could not find varfile at path 'foo.env'")) ∧
    (pickEnvironment [] cfg773 "default" =
      .error (.configurationError "Could not find varfile at path 'foo.env'")) ∧
    (pickEnvironment [] cfgBasic "default" =
      .ok { environmentName := "default", namespc := none, production := false,
            providers := [⟨"exec", none, []⟩, ⟨"container", none, []⟩], vars := [] }) := by
  refine ⟨?_, ?_, rfl, rfl, rfl⟩
  · intro fs dflt h
    simp [loadVarfile, h]
  · intro fs p dflt h hne
    simp [loadVarfile, h, hne]

/-- Concrete instance of varfile absence handling: an empty file system with
the default project varfile path, and with an explicit path "foo.env". -/
theorem varfile_absence_handling_witness :
    loadVarfile [] none defaultVarfilePath = .ok [] ∧
    loadVarfile [] (some "foo.env") defaultVarfilePath =
      .error (.configurationError "Could not find varfile at path 'foo.env'") :=
  ⟨varfile_absence_handling.1 [] defaultVarfilePath rfl,
    varfile_absence_handling.2.1 [] "foo.env" defaultVarfilePath rfl (by decide)⟩

/-- C7: the selected environment's variables are the deep merge, lowest to
highest precedence, of project variables, project varfile, environment
variables and environment varfile; deep merge recurses key by key into
nested mappings, merges sequences positionally with the shorter sequence
extended rather than truncated, and replaces scalars outright (mutation-free
by construction, every merge builds a new value). -/
theorem variable_merge_precedence :
    ((pickEnvironment fs693 cfg693 "default").map (fun r => r.vars) =
      .ok [("a", .str "a"), ("b", .str "B"), ("c", .str "C"), ("d", .str "D"),
        ("e", .str "e")]) ∧
    ((pickEnvironment [] cfg486 "default").map (fun r => r.vars) =
      .ok [("a", .str "project value A"), ("b", .str "env value B"),
        ("array", .arr [.obj [("projectArrayKey", .str "project array value"),
          ("envArrayKey", .str "env array value")]]),
        ("nested", .obj [("nestedA", .str "nested project value A"),
          ("nestedB", .str "nested env value B"),
          ("nestedC", .str "nested env value C")]),
        ("c", .str "env value C")]) ∧
    (∀ (a : JVal) (s : String), deepMerge a (.str s) = .str s) ∧
    (∀ (a : List (String × JVal)) (k : String) (v : JVal),
      lookupStr (deepMergeFields a [(k, v)]) k =
        some (match lookupStr a k with
          | some old => deepMerge old v
          | none => v)) ∧
    (∀ xs ys : List JVal, (deepMergeArr xs ys).length = max xs.length ys.length) ∧
    (∀ (xs ys : List JVal) (i : Nat), i < xs.length → i < ys.length →
      (deepMergeArr xs ys).getD i .null = deepMerge (xs.getD i .null) (ys.getD i .null)) ∧
    (∀ (xs ys : List JVal) (i : Nat), ys.length ≤ i → i < xs.length →
      (deepMergeArr xs ys).getD i .null = xs.getD i .null) ∧
    (∀ (xs ys : List JVal) (i : Nat), xs.length ≤ i → i < ys.length →
      (deepMergeArr xs ys).getD i .null = ys.getD i .null) := by
  refine ⟨rfl, rfl, ?_, ?_, deepMergeArr_length, deepMergeArr_getD_both,
    deepMergeArr_getD_left, deepMergeArr_getD_right⟩
  · intro a s
    cases a <;> rfl
  · intro a k v
    have h1 : deepMergeFields a [(k, v)] =
        upsert a k (match lookupStr a k with
          | some old => deepMerge old v
          | none => v) := rfl
    rw [h1, lookupStr_upsert]

/-- Concrete instance of the positional array merge: element access inside
and beyond the shorter sequence. -/
theorem variable_merge_precedence_witness :
    (deepMergeArr [.str "x", .str "y"] [.str "z"]).getD 0 .null =
      deepMerge ([.str "x", .str "y"].getD 0 .null) ([.str "z"].getD 0 .null) ∧
    (deepMergeArr [.str "x", .str "y"] [.str "z"]).getD 1 .null =
      [.str "x", .str "y"].getD 1 .null :=
  ⟨variable_merge_precedence.2.2.2.2.2.1 [.str "x", .str "y"] [.str "z"] 0
      (by decide) (by decide),
    variable_merge_precedence.2.2.2.2.2.2.1 [.str "x", .str "y"] [.str "z"] 1
      (by decide) (by decide)⟩

/-- C6: provider fragments surviving the environment filter are grouped by
name in first-seen order and patch-merged within each group in list order
with JSON-Merge-Patch semantics: later object keys overwrite, a null value
deletes the key, non-object values replace outright; in particular the
fragments named "p" with a:"a", b:"b", a:null merge to just b:"b". -/
theorem provider_patch_merge_semantics :
    (mergeFragments [⟨"p", none, [("a", .str "a")]⟩, ⟨"p", none, [("b", .str "b")]⟩,
        ⟨"p", none, [("a", JVal.null)]⟩] = [⟨"p", none, [("b", .str "b")]⟩]) ∧
    (pickEnvironment [] cfg459 "default" =
      .ok { environmentName := "default", namespc := none, production := false,
            providers := [⟨"exec", none, []⟩,
              ⟨"container", none, [("newKey", .str "foo")]⟩,
              ⟨"my-provider", none, [("b", .str "b")]⟩],
            vars := [] }) ∧
    (pickEnvironment [] cfg432 "default" = .ok res432) ∧
    (∀ (ps : List ProviderFragment) (env : String),
      (pickEnvironmentProviders ps env).map (fun q => q.name) =
        dedupKeepFirst (fixedPlugins ++ (filterFragments ps env).map (fun q => q.name))) ∧
    (∀ (t : JVal) (s : String), jsonMergePatch t (.str s) = .str s) ∧
    (∀ (t : JVal) (xs : List JVal), jsonMergePatch t (.arr xs) = .arr xs) ∧
    (∀ (acc : List (String × JVal)) (k : String),
      lookupStr (jsonMergePatchFields acc [(k, JVal.null)]) k = none) ∧
    (∀ (acc : List (String × JVal)) (k : String) (s : String),
      lookupStr (jsonMergePatchFields acc [(k, JVal.str s)]) k = some (.str s)) := by
  refine ⟨rfl, rfl, rfl, pickEnvironmentProviders_names, ?_, ?_, ?_, ?_⟩
  · intro t s; cases t <;> rfl
  · intro t xs; cases t <;> rfl
  · intro acc k
    have h1 : jsonMergePatchFields acc [(k, JVal.null)] = omitKey acc k := rfl
    rw [h1, lookupStr_omitKey]
  · intro acc k s
    have h1 : jsonMergePatchFields acc [(k, JVal.str s)] =
        upsert acc k (jsonMergePatch (match lookupStr acc k with
          | some o => o
          | none => JVal.null) (.str s)) := rfl
    rw [h1, lookupStr_upsert]
    cases hl : lookupStr acc k with
    | none => rfl
    | some o => cases o <;> rfl

/-- C2 counterexample: on the provider-merge unit test's own input, the
resolved provider list does not begin with the pristine built-in entries —
the user-declared "container" fragment has been patch-merged into the
built-in "container" entry, which therefore carries `newKey`. -/
theorem builtin_providers_unmerged_cex :
    pickEnvironment [] cfg432 "default" = .ok res432 ∧
    res432.providers.take 2 ≠ fixedPlugins.map (fun n => ProviderFragment.mk n none []) :=
  ⟨rfl, by decide⟩

/-- C2 amended: the provider list begins with entries for the built-in
providers "exec" and "container", in that order, ahead of all user-declared
providers; a user-declared fragment bearing a built-in provider's name is
patch-merged into that built-in entry (the built-ins seed the merge groups),
so the built-in entries are pristine exactly when no user fragment shares
their name. -/
theorem builtin_providers_prepended :
    (∀ (ps : List ProviderFragment) (env : String),
      ((pickEnvironmentProviders ps env).map (fun q => q.name)).take 2 = fixedPlugins) ∧
    (pickEnvironment [] cfgBasic "default" =
      .ok { environmentName := "default", namespc := none, production := false,
            providers := [⟨"exec", none, []⟩, ⟨"container", none, []⟩], vars := [] }) ∧
    (pickEnvironment [] cfg432 "default" = .ok res432) := by
  refine ⟨?_, rfl, rfl⟩
  intro ps env
  rw [pickEnvironmentProviders_names]
  unfold dedupKeepFirst
  rw [List.foldl_append]
  have hinit : List.foldl dedupStep [] fixedPlugins = ["exec", "container"] := rfl
  rw [hinit]
  obtain ⟨t, ht⟩ :=
    dedupStep_foldl_prefix ((filterFragments ps env).map (fun q => q.name))
      ["exec", "container"]
  rw [← ht]
  rfl

/-- C9: `resolveProjectConfig` resolves template-string expressions on every
field except the provider-config fragments: the original provider fragments
come back verbatim (as a prefix of the resulting provider list, ahead of any
converted legacy fragments), while variables, environment variables and
sources come back with their template expressions resolved. -/
theorem project_config_template_frame :
    (∀ (ctx : TmplCtx) (config : ProjectConfig),
      config.providers <+: (resolveProjectConfig ctx config).providers) ∧
    (resolveProjectConfig ctx81 cfg81 =
      { name := "my-project"
        defaultEnvironment := "default"
        environments := [{ name := "default", namespacing := .optional, production := false,
                           varfile := none, vars := [("envVar", .str "foo")],
                           providers := [] }]
        providers := [⟨"some-provider", none, []⟩]
        varfile := some defaultVarfilePath
        sources := .arr [.obj [("name", .str "foo"),
          ("repositoryUrl", .str "git://github.com/foo/bar.git#boo")]]
        vars := [("platform", .str "test-platform")] }) ∧
    ((resolveProjectConfig ctx142 cfg142).providers = cfg142.providers) ∧
    ((resolveProjectConfig ctx142 cfg142).environments.map (fun e => e.vars) =
      [[("envVar", .str "foo")]]) := by
  refine ⟨?_, rfl, rfl, rfl⟩
  intro ctx config
  exact ⟨_, rfl⟩

/-- Concrete instance of the provider frame property: the fragments of the
pass-through unit test are a prefix of the resolved provider list. -/
theorem project_config_template_frame_witness :
    cfg142.providers <+: (resolveProjectConfig ctx142 cfg142).providers :=
  project_config_template_frame.1 ctx142 cfg142

/-- C5: on a fresh (non-memoized) successful resolution, immediately after
the `configureProvider` handler returns, its returned config is re-validated
against the plugin's own schema, and then that same returned config is
validated, in order, against the schema of every ancestor plugin in the
inheritance chain, each time accepting unknown keys; ancestors without a
config schema are skipped. -/
theorem configure_revalidation_chain (garden : Garden) (plugin : Plugin)
    (config : ProviderCfg) (forceInit : Bool) (deps : List Provider)
    (p : Provider) (events : List Event)
    (hmiss : lookupStr garden.resolvedProviders config.name = none)
    (hok : processTask garden plugin config forceInit deps = (.ok p, events)) :
    ∃ preEvents postEvents : List Event,
      events = preEvents ++
        (Event.configure config.name ::
          Event.validation ownConfigType
            (plugin.configSchema.getD { allowUnknown := true }).allowUnknown
            (postConfigureConfig garden plugin config deps) ::
          ((getPluginBases garden.plugins.length plugin garden.plugins).filter
            (fun b => b.configSchema.isSome)).map
            (fun b => Event.validation (baseConfigType b.name) true
              (postConfigureConfig garden plugin config deps))) ++
        postEvents := by
  unfold processTask at hok
  rw [hmiss] at hok
  dsimp only at hok
  cases hv1 : validateWithPath
      (omitKey (resolveTemplateFields (providerConfigContext garden deps) config.fields) "path")
      (plugin.configSchema.getD { allowUnknown := true }) with
  | error m =>
    rw [hv1] at hok
    exact absurd hok (by simp)
  | ok v1 =>
    rw [hv1] at hok
    dsimp only at hok
    have hv1eq : v1 =
        omitKey (resolveTemplateFields (providerConfigContext garden deps) config.fields)
          "path" := validateWithPath_ok_eq _ _ _ hv1
    subst hv1eq
    cases hv2 : validateWithPath
        (omitKey (applyConfigureProvider plugin
          (upsert (omitKey (resolveTemplateFields (providerConfigContext garden deps)
            config.fields) "path") "path" (.str garden.projectRoot))).config "path")
        (plugin.configSchema.getD { allowUnknown := true }) with
    | error m =>
      rw [hv2] at hok
      exact absurd hok (by simp)
    | ok v2 =>
      rw [hv2] at hok
      dsimp only at hok
      have hv2eq : v2 = postConfigureConfig garden plugin config deps :=
        validateWithPath_ok_eq _ _ _ hv2
      cases hvb : validateBases (getPluginBases garden.plugins.length plugin garden.plugins)
          (upsert v2 "path" (.str garden.projectRoot)) with
      | mk res bevs =>
        rw [hvb] at hok
        cases res with
        | error m => exact absurd hok (by simp)
        | ok rc3 =>
          dsimp only at hok
          cases hep : ensurePrepared plugin
              (Provider.mk config.name rc3 deps
                (applyConfigureProvider plugin
                  (upsert (omitKey (resolveTemplateFields (providerConfigContext garden deps)
                    config.fields) "path") "path" (.str garden.projectRoot))).moduleConfigs
                defaultEnvironmentStatus) forceInit with
          | mk epres pevs =>
            rw [hep] at hok
            cases epres with
            | error e => exact absurd hok (by simp)
            | ok status =>
              dsimp only at hok
              simp only [Prod.mk.injEq, Except.ok.injEq] at hok
              obtain ⟨-, hevents⟩ := hok
              obtain ⟨hbevs, -⟩ := validateBases_ok _ _ _ _ hvb
              have hcfg2 : omitKey (upsert v2 "path" (.str garden.projectRoot)) "path" =
                  postConfigureConfig garden plugin config deps := by
                rw [omitKey_upsert, hv2eq]
                unfold postConfigureConfig
                rw [omitKey_idem]
              refine ⟨[Event.validation ownConfigType
                (plugin.configSchema.getD { allowUnknown := true }).allowUnknown
                (omitKey (resolveTemplateFields (providerConfigContext garden deps)
                  config.fields) "path")], pevs, ?_⟩
              rw [← hevents, hbevs, hcfg2]
              simp [postConfigureConfig]

/-- Concrete instance of the re-validation chain: a plugin with schema-
bearing base "b" (reached through schema-less base "m") whose configure
handler adds a key; the trace shows configure, the own-schema re-validation
of the returned config, and one base validation of the same config with
unknown keys accepted. -/
theorem configure_revalidation_chain_witness :
    ∃ preEvents postEvents : List Event,
      (processTask chainGarden chainPlugin { name := "p" } false []).2 =
        preEvents ++
          (Event.configure "p" ::
            Event.validation ownConfigType
              (chainPlugin.configSchema.getD { allowUnknown := true }).allowUnknown
              (postConfigureConfig chainGarden chainPlugin { name := "p" } []) ::
            ((getPluginBases chainGarden.plugins.length chainPlugin
                chainGarden.plugins).filter (fun b => b.configSchema.isSome)).map
              (fun b => Event.validation (baseConfigType b.name) true
                (postConfigureConfig chainGarden chainPlugin { name := "p" } []))) ++
          postEvents :=
  configure_revalidation_chain chainGarden chainPlugin { name := "p" } false []
    (Provider.mk "p" [("foo", .str "bar")] [] [] { ready := true })
    (processTask chainGarden chainPlugin { name := "p" } false []).2 rfl rfl

end GardenSpec
